import Mathlib

/-!
# Verification of the charm-polarisation analysis task

Shallow embedding of `PWGHF/D2H/Tasks/taskCharmPolarisation.cxx` (O2Physics):
the rotational-background angle computation, the kinematic extraction per
decay channel and mass hypothesis, the rest-frame boost and the four
reference-axis cosines, the histogram fill lists, and the startup
configuration checks.  Machine `float` arithmetic is embedded as exact real
arithmetic; external ROOT vector/boost operations are embedded by their
standard mathematical definitions.
-/

namespace CharmPolarisation

noncomputable section

/-- Three-vector with real components, mirroring `ROOT::Math::XYZVector`. -/
structure Vec3 where
  x : ℝ
  y : ℝ
  z : ℝ

/-- Scalar product, mirroring `XYZVector::Dot`. -/
def Vec3.Dot (a b : Vec3) : ℝ := a.x * b.x + a.y * b.y + a.z * b.z

/-- Squared magnitude, mirroring `XYZVector::Mag2`. -/
def Vec3.Mag2 (a : Vec3) : ℝ := a.x * a.x + a.y * a.y + a.z * a.z

theorem Vec3.Mag2_nonneg (a : Vec3) : 0 ≤ a.Mag2 := by
  unfold Vec3.Mag2
  nlinarith [mul_self_nonneg a.x, mul_self_nonneg a.y, mul_self_nonneg a.z]

/-- `o2::constants::math::TwoPI`. -/
def TwoPI : ℝ := 2 * Real.pi

/-- `o2::constants::physics::MassPiPlus` (GeV). -/
def massPi : ℝ := 0.13957039

/-- `o2::constants::physics::MassProton` (GeV). -/
def massProton : ℝ := 0.93827208816

/-- `o2::constants::physics::MassKaonCharged` (GeV). -/
def massKaon : ℝ := 0.493677

/-- `o2::constants::physics::MassDStar` (GeV). -/
def massDstar : ℝ := 2.01026

/-- `o2::constants::physics::MassLambdaCPlus` (GeV). -/
def massLc : ℝ := 2.28646

/-- `bkgRotationAngleStep = constants::math::TwoPI / (nBkgRotations + 1)`
(init, line 137). -/
def bkgRotationAngleStep (nBkgRotations : ℕ) : ℝ :=
  TwoPI / ((nBkgRotations : ℝ) + 1)

/-- `const float bkgRotAngle = bkgRotationAngleStep * bkgRotationId`
(runPolarisationAnalysis, line 261). -/
def bkgRotAngle (nBkgRotations bkgRotationId : ℕ) : ℝ :=
  bkgRotationAngleStep nBkgRotations * (bkgRotationId : ℝ)

/-- C1: for the Lc channel with N configured background rotations, the
rotation angle applied at rotation index k equals k·2π/(N+1) for every
k ≤ N, with angle(0) = 0; consecutive angles differ by the constant step
and the N+1 steps sum to the full circle 2π; for N = 0 the step degenerates
to the single angle 2π, whose rotation is the identity
(cos = 1, sin = 0). -/
theorem c1_lc_rotation_angles (N k : ℕ) (hk : k ≤ N) :
    bkgRotAngle N k = (k : ℝ) * (2 * Real.pi / ((N : ℝ) + 1)) ∧
    bkgRotAngle N 0 = 0 ∧
    bkgRotAngle N (k + 1) - bkgRotAngle N k = bkgRotationAngleStep N ∧
    ((N : ℝ) + 1) * bkgRotationAngleStep N = 2 * Real.pi ∧
    (N = 0 → bkgRotationAngleStep N = 2 * Real.pi ∧
      Real.cos (bkgRotationAngleStep N) = 1 ∧
      Real.sin (bkgRotationAngleStep N) = 0) := by
  have hN : ((N : ℝ) + 1) ≠ 0 := by positivity
  refine ⟨?_, ?_, ?_, ?_, ?_⟩
  · unfold bkgRotAngle bkgRotationAngleStep TwoPI
    ring
  · unfold bkgRotAngle
    simp
  · unfold bkgRotAngle
    push_cast
    ring
  · unfold bkgRotationAngleStep TwoPI
    field_simp
  · intro hN0
    subst hN0
    unfold bkgRotationAngleStep TwoPI
    norm_num [Real.cos_two_pi, Real.sin_two_pi]

theorem c1_lc_rotation_angles_witness :
    (1 : ℕ) ≤ 2 ∧
    (bkgRotAngle 2 1 = (1 : ℝ) * (2 * Real.pi / ((2 : ℝ) + 1)) ∧
      bkgRotAngle 2 0 = 0 ∧
      bkgRotAngle 2 2 - bkgRotAngle 2 1 = bkgRotationAngleStep 2 ∧
      ((2 : ℝ) + 1) * bkgRotationAngleStep 2 = 2 * Real.pi ∧
      (2 = 0 → bkgRotationAngleStep 2 = 2 * Real.pi ∧
        Real.cos (bkgRotationAngleStep 2) = 1 ∧
        Real.sin (bkgRotationAngleStep 2) = 0)) := by
  refine ⟨by norm_num, ?_⟩
  have h := c1_lc_rotation_angles 2 1 (by norm_num)
  exact_mod_cast h

/-! ## Four-vectors and the rest-frame boost (lines 342-356) -/

/-- Four-vector in (px, py, pz, M) representation, mirroring
`ROOT::Math::PxPyPzMVector`. -/
structure PxPyPzMVector where
  px : ℝ
  py : ℝ
  pz : ℝ
  M : ℝ

/-- Energy of a `PxPyPzMVector`: `E = sqrt(M^2 + |p|^2)`. -/
def PxPyPzMVector.E (v : PxPyPzMVector) : ℝ :=
  Real.sqrt (v.M * v.M + v.px * v.px + v.py * v.py + v.pz * v.pz)

/-- Spatial part of a four-vector, mirroring `LorentzVector::Vect()`. -/
def PxPyPzMVector.Vect (v : PxPyPzMVector) : Vec3 :=
  ⟨v.px, v.py, v.pz⟩

/-- `LorentzVector::BoostToCM()`: the velocity `-p/E` of the frame in which
this four-vector is at rest. -/
def PxPyPzMVector.BoostToCM (v : PxPyPzMVector) : Vec3 :=
  ⟨-v.px / v.E, -v.py / v.E, -v.pz / v.E⟩

/-- Spatial part of `ROOT::Math::Boost(beta)` applied to a four-vector with
momentum `p` and energy `e`: the pure boost
`p + (γ²/(1+γ)·(β·p) + γ·e)·β` with `γ = 1/sqrt(1-|β|²)`. -/
def boostVect (beta p : Vec3) (e : ℝ) : Vec3 :=
  let gamma := 1 / Real.sqrt (1 - beta.Mag2)
  let f := gamma * gamma / (1 + gamma) * beta.Dot p + gamma * e
  ⟨p.x + f * beta.x, p.y + f * beta.y, p.z + f * beta.z⟩

/-- `threeVecDauCM = boost(fourVecMother.BoostToCM())(fourVecDau).Vect()`
(lines 344-346): the probe momentum in the parent rest frame. -/
def threeVecDauCM (fourVecDau fourVecMother : PxPyPzMVector) : Vec3 :=
  boostVect fourVecMother.BoostToCM fourVecDau.Vect fourVecDau.E

/-- The random reference axis built from the sampled spherical angles
(line 348): `(sinθ·cosφ, sinθ·sinφ, cosθ)`. -/
def randomVec (phiRandom thetaRandom : ℝ) : Vec3 :=
  ⟨Real.sin thetaRandom * Real.cos phiRandom,
   Real.sin thetaRandom * Real.sin phiRandom,
   Real.cos thetaRandom⟩

/-- The beam reference axis (line 349): `(0, 0, 1)`. -/
def beamVec : Vec3 := ⟨0, 0, 1⟩

/-- The helicity reference axis (line 350): the parent lab momentum. -/
def helicityVec (fourVecMother : PxPyPzMVector) : Vec3 :=
  fourVecMother.Vect

/-- The production-normal reference axis (line 351):
`(pyCharmHad, -pxCharmHad, 0)` of the parent. -/
def normalVec (fourVecMother : PxPyPzMVector) : Vec3 :=
  ⟨fourVecMother.py, -fourVecMother.px, 0⟩

/-- `cosThetaStarHelicity` (line 353). -/
def cosThetaStarHelicity (fourVecDau fourVecMother : PxPyPzMVector) : ℝ :=
  (helicityVec fourVecMother).Dot (threeVecDauCM fourVecDau fourVecMother) /
    Real.sqrt (threeVecDauCM fourVecDau fourVecMother).Mag2 /
    Real.sqrt (helicityVec fourVecMother).Mag2

/-- `cosThetaStarProduction` (line 354). -/
def cosThetaStarProduction (fourVecDau fourVecMother : PxPyPzMVector) : ℝ :=
  (normalVec fourVecMother).Dot (threeVecDauCM fourVecDau fourVecMother) /
    Real.sqrt (threeVecDauCM fourVecDau fourVecMother).Mag2 /
    Real.sqrt (normalVec fourVecMother).Mag2

/-- `cosThetaStarBeam` (line 355): no division by the axis norm. -/
def cosThetaStarBeam (fourVecDau fourVecMother : PxPyPzMVector) : ℝ :=
  beamVec.Dot (threeVecDauCM fourVecDau fourVecMother) /
    Real.sqrt (threeVecDauCM fourVecDau fourVecMother).Mag2

/-- `cosThetaStarRandom` (line 356): no division by the axis norm. -/
def cosThetaStarRandom (fourVecDau fourVecMother : PxPyPzMVector)
    (phiRandom thetaRandom : ℝ) : ℝ :=
  (randomVec phiRandom thetaRandom).Dot (threeVecDauCM fourVecDau fourVecMother) /
    Real.sqrt (threeVecDauCM fourVecDau fourVecMother).Mag2

/-- The specification's cosine formula: `cosθ_A = (A · p_CM) / (|A| · |p_CM|)`.
Stated from the spec's words, for comparison with the source definitions. -/
def specCosTheta (A pCM : Vec3) : ℝ :=
  A.Dot pCM / (Real.sqrt A.Mag2 * Real.sqrt pCM.Mag2)

theorem randomVec_Mag2 (phiRandom thetaRandom : ℝ) :
    (randomVec phiRandom thetaRandom).Mag2 = 1 := by
  unfold randomVec Vec3.Mag2
  dsimp only
  have h1 := Real.sin_sq_add_cos_sq phiRandom
  have h2 := Real.sin_sq_add_cos_sq thetaRandom
  linear_combination (Real.sin thetaRandom) ^ 2 * h1 + h2

theorem beamVec_Mag2 : beamVec.Mag2 = 1 := by
  unfold beamVec Vec3.Mag2
  norm_num

/-- C2: the four cosines are computed from the rest-frame probe momentum as
`(A · p_CM)/(|A|·|p_CM|)` for the helicity axis (the parent lab momentum)
and the production-normal axis `(py, -px, 0)`, and as `(A · p_CM)/|p_CM|`
with no `|A|` factor for the beam axis `(0,0,1)` and the random axis (a unit
vector built from the sampled spherical angles). -/
theorem c2_cosine_formulas (fourVecDau fourVecMother : PxPyPzMVector)
    (phiRandom thetaRandom : ℝ) :
    cosThetaStarHelicity fourVecDau fourVecMother =
      specCosTheta (helicityVec fourVecMother) (threeVecDauCM fourVecDau fourVecMother) ∧
    cosThetaStarProduction fourVecDau fourVecMother =
      specCosTheta (normalVec fourVecMother) (threeVecDauCM fourVecDau fourVecMother) ∧
    cosThetaStarBeam fourVecDau fourVecMother =
      specCosTheta beamVec (threeVecDauCM fourVecDau fourVecMother) ∧
    cosThetaStarRandom fourVecDau fourVecMother phiRandom thetaRandom =
      specCosTheta (randomVec phiRandom thetaRandom) (threeVecDauCM fourVecDau fourVecMother) ∧
    helicityVec fourVecMother = fourVecMother.Vect ∧
    normalVec fourVecMother = ⟨fourVecMother.py, -fourVecMother.px, 0⟩ ∧
    beamVec = ⟨0, 0, 1⟩ ∧
    (randomVec phiRandom thetaRandom).Mag2 = 1 := by
  refine ⟨?_, ?_, ?_, ?_, rfl, rfl, rfl, randomVec_Mag2 phiRandom thetaRandom⟩
  · unfold cosThetaStarHelicity specCosTheta
    rw [div_div, mul_comm]
  · unfold cosThetaStarProduction specCosTheta
    rw [div_div, mul_comm]
  · unfold cosThetaStarBeam specCosTheta
    rw [beamVec_Mag2, Real.sqrt_one, one_mul]
  · unfold cosThetaStarRandom specCosTheta
    rw [randomVec_Mag2, Real.sqrt_one, one_mul]

theorem dot_sq_le_mag2_mul (a b : Vec3) :
    (a.Dot b) ^ 2 ≤ a.Mag2 * b.Mag2 := by
  unfold Vec3.Dot Vec3.Mag2
  nlinarith [sq_nonneg (a.x * b.y - a.y * b.x), sq_nonneg (a.x * b.z - a.z * b.x),
    sq_nonneg (a.y * b.z - a.z * b.y)]

theorem abs_dot_le (a b : Vec3) :
    |a.Dot b| ≤ Real.sqrt a.Mag2 * Real.sqrt b.Mag2 := by
  rw [← Real.sqrt_sq_eq_abs, ← Real.sqrt_mul (Vec3.Mag2_nonneg a)]
  exact Real.sqrt_le_sqrt (dot_sq_le_mag2_mul a b)

theorem cos_formula_bounds (A p : Vec3) (hA : A.Mag2 ≠ 0) (hp : p.Mag2 ≠ 0) :
    -1 ≤ A.Dot p / Real.sqrt p.Mag2 / Real.sqrt A.Mag2 ∧
      A.Dot p / Real.sqrt p.Mag2 / Real.sqrt A.Mag2 ≤ 1 := by
  have hA' : 0 < Real.sqrt A.Mag2 :=
    Real.sqrt_pos.mpr (lt_of_le_of_ne (Vec3.Mag2_nonneg A) (Ne.symm hA))
  have hp' : 0 < Real.sqrt p.Mag2 :=
    Real.sqrt_pos.mpr (lt_of_le_of_ne (Vec3.Mag2_nonneg p) (Ne.symm hp))
  have habs : |A.Dot p / Real.sqrt p.Mag2 / Real.sqrt A.Mag2| ≤ 1 := by
    rw [div_div, abs_div, abs_of_pos (mul_pos hp' hA')]
    refine (div_le_one (mul_pos hp' hA')).mpr ?_
    calc |A.Dot p| ≤ Real.sqrt A.Mag2 * Real.sqrt p.Mag2 := abs_dot_le A p
    _ = Real.sqrt p.Mag2 * Real.sqrt A.Mag2 := mul_comm _ _
  exact abs_le.mp habs

theorem cos_formula_bounds_unit (A p : Vec3) (hA : A.Mag2 = 1) (hp : p.Mag2 ≠ 0) :
    -1 ≤ A.Dot p / Real.sqrt p.Mag2 ∧ A.Dot p / Real.sqrt p.Mag2 ≤ 1 := by
  have h := cos_formula_bounds A p (by rw [hA]; exact one_ne_zero) hp
  rwa [hA, Real.sqrt_one, div_one] at h

/-- C6: whenever the rest-frame probe momentum has nonzero magnitude (and,
for the helicity and production axes, the axis has nonzero magnitude), each
computed cosine lies in [-1, 1]; when the rest-frame probe momentum has zero
magnitude, the computation is unguarded: the denominator `sqrt(Mag2)` is 0
and each cosine is literally a division by zero (junk value, not an
error path). -/
theorem c6_cosines_bounded_and_unguarded
    (fourVecDau fourVecMother : PxPyPzMVector) (phiRandom thetaRandom : ℝ) :
    ((threeVecDauCM fourVecDau fourVecMother).Mag2 ≠ 0 →
      ((helicityVec fourVecMother).Mag2 ≠ 0 →
        -1 ≤ cosThetaStarHelicity fourVecDau fourVecMother ∧
          cosThetaStarHelicity fourVecDau fourVecMother ≤ 1) ∧
      ((normalVec fourVecMother).Mag2 ≠ 0 →
        -1 ≤ cosThetaStarProduction fourVecDau fourVecMother ∧
          cosThetaStarProduction fourVecDau fourVecMother ≤ 1) ∧
      (-1 ≤ cosThetaStarBeam fourVecDau fourVecMother ∧
        cosThetaStarBeam fourVecDau fourVecMother ≤ 1) ∧
      (-1 ≤ cosThetaStarRandom fourVecDau fourVecMother phiRandom thetaRandom ∧
        cosThetaStarRandom fourVecDau fourVecMother phiRandom thetaRandom ≤ 1)) ∧
    ((threeVecDauCM fourVecDau fourVecMother).Mag2 = 0 →
      Real.sqrt (threeVecDauCM fourVecDau fourVecMother).Mag2 = 0 ∧
      cosThetaStarBeam fourVecDau fourVecMother =
        beamVec.Dot (threeVecDauCM fourVecDau fourVecMother) / 0 ∧
      cosThetaStarRandom fourVecDau fourVecMother phiRandom thetaRandom =
        (randomVec phiRandom thetaRandom).Dot (threeVecDauCM fourVecDau fourVecMother) / 0 ∧
      cosThetaStarHelicity fourVecDau fourVecMother =
        (helicityVec fourVecMother).Dot (threeVecDauCM fourVecDau fourVecMother) / 0 /
          Real.sqrt (helicityVec fourVecMother).Mag2 ∧
      cosThetaStarProduction fourVecDau fourVecMother =
        (normalVec fourVecMother).Dot (threeVecDauCM fourVecDau fourVecMother) / 0 /
          Real.sqrt (normalVec fourVecMother).Mag2) := by
  constructor
  · intro hp
    refine ⟨fun hA => ?_, fun hA => ?_, ?_, ?_⟩
    · exact cos_formula_bounds _ _ hA hp
    · exact cos_formula_bounds _ _ hA hp
    · exact cos_formula_bounds_unit _ _ beamVec_Mag2 hp
    · exact cos_formula_bounds_unit _ _ (randomVec_Mag2 phiRandom thetaRandom) hp
  · intro hp
    have hs : Real.sqrt (threeVecDauCM fourVecDau fourVecMother).Mag2 = 0 := by
      rw [hp, Real.sqrt_zero]
    refine ⟨hs, ?_, ?_, ?_, ?_⟩
    · unfold cosThetaStarBeam
      rw [hs]
    · unfold cosThetaStarRandom
      rw [hs]
    · unfold cosThetaStarHelicity
      rw [hs]
    · unfold cosThetaStarProduction
      rw [hs]

/-- Concrete probe four-vector for the C6 witness: `(1, 0, 0)` with mass 0. -/
def dauEx : PxPyPzMVector := ⟨1, 0, 0, 0⟩

/-- Concrete parent four-vector for the C6 witness: `(3, 0, 0)` with
mass 4, so `E = 5`. -/
def motherEx : PxPyPzMVector := ⟨3, 0, 0, 4⟩

theorem threeVecDauCM_ex : threeVecDauCM dauEx motherEx = ⟨1 / 2, 0, 0⟩ := by
  have hE : PxPyPzMVector.E motherEx = 5 := by
    unfold motherEx PxPyPzMVector.E
    rw [show (4 * 4 + 3 * 3 + 0 * 0 + 0 * 0 : ℝ) = 5 ^ 2 by norm_num,
      Real.sqrt_sq (by norm_num : (0 : ℝ) ≤ 5)]
  have hEd : PxPyPzMVector.E dauEx = 1 := by
    unfold dauEx PxPyPzMVector.E
    rw [show (0 * 0 + 1 * 1 + 0 * 0 + 0 * 0 : ℝ) = 1 by norm_num, Real.sqrt_one]
  have hB : PxPyPzMVector.BoostToCM motherEx = ⟨-3 / 5, 0, 0⟩ := by
    unfold PxPyPzMVector.BoostToCM
    rw [hE]
    show Vec3.mk (-motherEx.px / 5) (-motherEx.py / 5) (-motherEx.pz / 5) = _
    unfold motherEx
    norm_num
  have hg : Real.sqrt (1 - Vec3.Mag2 ⟨-3 / 5, 0, 0⟩) = 4 / 5 := by
    unfold Vec3.Mag2
    rw [show (1 - (-3 / 5 * (-3 / 5) + 0 * 0 + 0 * 0) : ℝ) = (4 / 5) ^ 2 by norm_num,
      Real.sqrt_sq (by norm_num : (0 : ℝ) ≤ 4 / 5)]
  unfold threeVecDauCM
  rw [hB, hEd]
  unfold boostVect
  rw [hg]
  show Vec3.mk _ _ _ = _
  unfold dauEx PxPyPzMVector.Vect Vec3.Dot
  norm_num

theorem c6_cosines_bounded_and_unguarded_witness :
    (threeVecDauCM dauEx motherEx).Mag2 ≠ 0 ∧
    (helicityVec motherEx).Mag2 ≠ 0 ∧
    (normalVec motherEx).Mag2 ≠ 0 ∧
    (-1 ≤ cosThetaStarHelicity dauEx motherEx ∧
      cosThetaStarHelicity dauEx motherEx ≤ 1) ∧
    (-1 ≤ cosThetaStarProduction dauEx motherEx ∧
      cosThetaStarProduction dauEx motherEx ≤ 1) ∧
    (-1 ≤ cosThetaStarBeam dauEx motherEx ∧
      cosThetaStarBeam dauEx motherEx ≤ 1) ∧
    (-1 ≤ cosThetaStarRandom dauEx motherEx 0 0 ∧
      cosThetaStarRandom dauEx motherEx 0 0 ≤ 1) := by
  have hp : (threeVecDauCM dauEx motherEx).Mag2 ≠ 0 := by
    rw [threeVecDauCM_ex]
    unfold Vec3.Mag2
    norm_num
  have hH : (helicityVec motherEx).Mag2 ≠ 0 := by
    unfold helicityVec motherEx PxPyPzMVector.Vect Vec3.Mag2
    norm_num
  have hP : (normalVec motherEx).Mag2 ≠ 0 := by
    unfold normalVec motherEx Vec3.Mag2
    norm_num
  have h := (c6_cosines_bounded_and_unguarded dauEx motherEx 0 0).1 hp
  exact ⟨hp, hH, hP, h.1 hH, h.2.1 hP, h.2.2.1, h.2.2.2⟩

/-! ## Lc candidate model and kinematic extraction (lines 255-338) -/

/-- enum value `MassHyposLcToPKPi::PKPi`. -/
def PKPi : ℕ := 0

/-- enum value `MassHyposLcToPKPi::PiKP`. -/
def PiKP : ℕ := 1

/-- enum value `MassHyposLcToPKPi::NMassHypoLcToPKPi`. -/
def NMassHypoLcToPKPi : ℕ := 2

/-- An Lc→pKπ candidate record: the fields of
`soa::Join<aod::HfCand3Prong, aod::HfSelLc>` (plus the ML-score columns)
read by the task. -/
structure LcCandidate where
  pxProng0 : ℝ
  pyProng0 : ℝ
  pzProng0 : ℝ
  pxProng1 : ℝ
  pyProng1 : ℝ
  pzProng1 : ℝ
  pxProng2 : ℝ
  pyProng2 : ℝ
  pzProng2 : ℝ
  px : ℝ
  py : ℝ
  pz : ℝ
  isSelLcToPKPi : ℤ
  isSelLcToPiKP : ℤ
  mlProbLcToPKPi : List ℝ
  mlProbLcToPiKP : List ℝ

/-- First prong three-momentum (the proton in the pKπ ordering). -/
def LcCandidate.prong0 (c : LcCandidate) : Vec3 := ⟨c.pxProng0, c.pyProng0, c.pzProng0⟩

/-- Second prong three-momentum (the kaon). -/
def LcCandidate.prong1 (c : LcCandidate) : Vec3 := ⟨c.pxProng1, c.pyProng1, c.pzProng1⟩

/-- Third prong three-momentum (the pion in the pKπ ordering). -/
def LcCandidate.prong2 (c : LcCandidate) : Vec3 := ⟨c.pxProng2, c.pyProng2, c.pzProng2⟩

/-- The task configuration fields relevant to the Lc channel. -/
structure LcConfig where
  selectionFlagLcToPKPi : ℤ
  nBkgRotations : ℕ
  activateTHnSparseCosThStarHelicity : Bool
  activateTHnSparseCosThStarProduction : Bool
  activateTHnSparseCosThStarBeam : Bool
  activateTHnSparseCosThStarRandom : Bool

/-- Modelled from the spec: `RecoDecay::m` (repository header
`Common/Core/RecoDecay.h`, not under src/) — "the invariant mass via a full
three-body mass formula": total energy is the sum of the daughter energies
`sqrt(m_i² + |p_i|²)` and the mass is `sqrt(E² - |Σp|²)`. -/
def RecoDecayM3 (p1 p2 p3 : Vec3) (m1 m2 m3 : ℝ) : ℝ :=
  let e := Real.sqrt (m1 * m1 + p1.Mag2) + Real.sqrt (m2 * m2 + p2.Mag2) +
    Real.sqrt (m3 * m3 + p3.Mag2)
  Real.sqrt (e * e - (Vec3.mk (p1.x + p2.x + p3.x) (p1.y + p2.y + p3.y)
    (p1.z + p2.z + p3.z)).Mag2)

/-- Modelled from the spec: `RecoDecay::y` (repository header
`Common/Core/RecoDecay.h`, not under src/) — "rapidity: a
longitudinal-motion observable, function of energy and longitudinal
momentum": `y = ½·ln((E+pz)/(E−pz))` with `E = sqrt(m² + |p|²)`. -/
def RecoDecayY (p : Vec3) (m : ℝ) : ℝ :=
  Real.log ((Real.sqrt (m * m + p.Mag2) + p.z) /
    (Real.sqrt (m * m + p.Mag2) - p.z)) / 2

/-- Modelled from the spec: `hfHelper.invMassLcToPKPi` (repository header
`PWGHF/Core/HfHelper.h`, not under src/) — the unrotated three-body
invariant mass with the proton-kaon-pion mass assignment to prongs 0,1,2. -/
def invMassLcToPKPi (c : LcCandidate) : ℝ :=
  RecoDecayM3 c.prong0 c.prong1 c.prong2 massProton massKaon massPi

/-- Modelled from the spec: `hfHelper.invMassLcToPiKP` (repository header
`PWGHF/Core/HfHelper.h`, not under src/) — the unrotated three-body
invariant mass with the pion-kaon-proton mass assignment to prongs 0,1,2. -/
def invMassLcToPiKP (c : LcCandidate) : ℝ :=
  RecoDecayM3 c.prong0 c.prong1 c.prong2 massPi massKaon massProton

/-- `threeVecLcRotatedProng1` (line 263): the kaon-track momentum with its
transverse components rotated in-plane by `angle`. -/
def threeVecLcRotatedProng1 (c : LcCandidate) (angle : ℝ) : Vec3 :=
  ⟨c.pxProng1 * Real.cos angle - c.pyProng1 * Real.sin angle,
   c.pxProng1 * Real.sin angle + c.pyProng1 * Real.cos angle,
   c.pzProng1⟩

/-- The parent momentum used downstream (lines 265-278): the sum of the
prongs with the rotated kaon track when `bkgRotationId > 0`, the candidate's
own momentum fields otherwise. -/
def lcParentMomentum (cfg : LcConfig) (c : LcCandidate) (bkgRotationId : ℕ) : Vec3 :=
  let rotProng1 := threeVecLcRotatedProng1 c (bkgRotAngle cfg.nBkgRotations bkgRotationId)
  if 0 < bkgRotationId then
    ⟨c.pxProng0 + rotProng1.x + c.pxProng2,
     c.pyProng0 + rotProng1.y + c.pyProng2,
     c.pzProng0 + rotProng1.z + c.pzProng2⟩
  else
    ⟨c.px, c.py, c.pz⟩

/-- The per-evaluation variables of `runPolarisationAnalysis`
(lines 229-234). -/
structure EvalVars where
  pxDau : ℝ
  pyDau : ℝ
  pzDau : ℝ
  pxCharmHad : ℝ
  pyCharmHad : ℝ
  pzCharmHad : ℝ
  massDau : ℝ
  invMassCharmHad : ℝ
  invMassCharmHadForSparse : ℝ
  rapidity : ℝ
  outputMl0 : ℝ
  outputMl1 : ℝ
  outputMl2 : ℝ
  isRotatedCandidate : ℤ

/-- The Lc kinematic extraction for one (rotation, mass-hypothesis) pair
(lines 255-338): `none` mirrors the `continue` that skips a mass hypothesis
whose selection flag is below the configured threshold. -/
def lcExtract (cfg : LcConfig) (c : LcCandidate) (withMl : Bool)
    (bkgRotationId iMass : ℕ) : Option EvalVars :=
  let rotProng1 := threeVecLcRotatedProng1 c (bkgRotAngle cfg.nBkgRotations bkgRotationId)
  let parent := lcParentMomentum cfg c bkgRotationId
  let isRot : ℤ := if 0 < bkgRotationId then 1 else 0
  let rap := RecoDecayY parent massLc
  if iMass = PKPi ∧ cfg.selectionFlagLcToPKPi ≤ c.isSelLcToPKPi then
    let m := if 0 < bkgRotationId then
        RecoDecayM3 c.prong0 rotProng1 c.prong2 massProton massKaon massPi
      else invMassLcToPKPi c
    let mlOk := withMl ∧ c.mlProbLcToPKPi.length = 3
    some { pxDau := c.pxProng0, pyDau := c.pyProng0, pzDau := c.pzProng0,
           pxCharmHad := parent.x, pyCharmHad := parent.y, pzCharmHad := parent.z,
           massDau := massProton,
           invMassCharmHad := m, invMassCharmHadForSparse := m,
           rapidity := rap,
           outputMl0 := if mlOk then c.mlProbLcToPKPi.getD 0 0 else -1,
           outputMl1 := if mlOk then c.mlProbLcToPKPi.getD 1 0 else -1,
           outputMl2 := if mlOk then c.mlProbLcToPKPi.getD 2 0 else -1,
           isRotatedCandidate := isRot }
  else if iMass = PiKP ∧ cfg.selectionFlagLcToPKPi ≤ c.isSelLcToPiKP then
    let m := if 0 < bkgRotationId then
        RecoDecayM3 c.prong0 rotProng1 c.prong2 massPi massKaon massProton
      else invMassLcToPiKP c
    let mlOk := withMl ∧ c.mlProbLcToPiKP.length = 3
    some { pxDau := c.pxProng2, pyDau := c.pyProng2, pzDau := c.pzProng2,
           pxCharmHad := parent.x, pyCharmHad := parent.y, pzCharmHad := parent.z,
           massDau := massProton,
           invMassCharmHad := m, invMassCharmHadForSparse := m,
           rapidity := rap,
           outputMl0 := if mlOk then c.mlProbLcToPiKP.getD 0 0 else -1,
           outputMl1 := if mlOk then c.mlProbLcToPiKP.getD 1 0 else -1,
           outputMl2 := if mlOk then c.mlProbLcToPiKP.getD 2 0 else -1,
           isRotatedCandidate := isRot }
  else
    none

/-! ## Histogram fills (lines 358-433) -/

/-- The four THnSparse outputs, one per reference axis. -/
inductive SparseAxis where
  | Helicity
  | Production
  | Beam
  | Random
  deriving DecidableEq

/-- One `registry.fill` call: the target histogram and the ordered tuple of
fill values.  `outputMl` is `some (outputMl[0], outputMl[2])` in ML mode
(the source passes scores 0 and 2; score 1 is commented out) and `none` in
plain mode; `isRotatedCandidate` is passed for the Lc channel. -/
structure SparseFill where
  hist : SparseAxis
  invMassCharmHadForSparse : ℝ
  candidatePt : ℝ
  pzCharmHad : ℝ
  rapidity : ℝ
  cosThetaStar : ℝ
  outputMl : Option (ℝ × ℝ)
  isRotatedCandidate : ℤ

/-- The list of fill calls issued for one Lc (rotation, mass-hypothesis)
evaluation (lines 340-433): empty when the extraction skipped the
hypothesis, otherwise one fill per activated THnSparse. -/
def lcFills (cfg : LcConfig) (c : LcCandidate) (withMl : Bool)
    (bkgRotationId iMass : ℕ) (phiRandom thetaRandom : ℝ) : List SparseFill :=
  match lcExtract cfg c withMl bkgRotationId iMass with
  | none => []
  | some e =>
    let fourVecDau : PxPyPzMVector := ⟨e.pxDau, e.pyDau, e.pzDau, e.massDau⟩
    let fourVecMother : PxPyPzMVector :=
      ⟨e.pxCharmHad, e.pyCharmHad, e.pzCharmHad, e.invMassCharmHad⟩
    let candidatePt := Real.sqrt (e.pxCharmHad * e.pxCharmHad + e.pyCharmHad * e.pyCharmHad)
    let ml : Option (ℝ × ℝ) := if withMl then some (e.outputMl0, e.outputMl2) else none
    (if cfg.activateTHnSparseCosThStarHelicity then
      [{ hist := SparseAxis.Helicity,
         invMassCharmHadForSparse := e.invMassCharmHadForSparse,
         candidatePt := candidatePt, pzCharmHad := e.pzCharmHad,
         rapidity := e.rapidity,
         cosThetaStar := cosThetaStarHelicity fourVecDau fourVecMother,
         outputMl := ml, isRotatedCandidate := e.isRotatedCandidate }] else [])
    ++ (if cfg.activateTHnSparseCosThStarProduction then
      [{ hist := SparseAxis.Production,
         invMassCharmHadForSparse := e.invMassCharmHadForSparse,
         candidatePt := candidatePt, pzCharmHad := e.pzCharmHad,
         rapidity := e.rapidity,
         cosThetaStar := cosThetaStarProduction fourVecDau fourVecMother,
         outputMl := ml, isRotatedCandidate := e.isRotatedCandidate }] else [])
    ++ (if cfg.activateTHnSparseCosThStarBeam then
      [{ hist := SparseAxis.Beam,
         invMassCharmHadForSparse := e.invMassCharmHadForSparse,
         candidatePt := candidatePt, pzCharmHad := e.pzCharmHad,
         rapidity := e.rapidity,
         cosThetaStar := cosThetaStarBeam fourVecDau fourVecMother,
         outputMl := ml, isRotatedCandidate := e.isRotatedCandidate }] else [])
    ++ (if cfg.activateTHnSparseCosThStarRandom then
      [{ hist := SparseAxis.Random,
         invMassCharmHadForSparse := e.invMassCharmHadForSparse,
         candidatePt := candidatePt, pzCharmHad := e.pzCharmHad,
         rapidity := e.rapidity,
         cosThetaStar := cosThetaStarRandom fourVecDau fourVecMother phiRandom thetaRandom,
         outputMl := ml, isRotatedCandidate := e.isRotatedCandidate }] else [])

/-- One call of `runPolarisationAnalysis` for the Lc channel: the loop over
the two mass hypotheses (line 226), with fresh random angles per
iteration. -/
def runPolarisationAnalysisLc (cfg : LcConfig) (c : LcCandidate) (withMl : Bool)
    (bkgRotationId : ℕ) (rands : ℕ → ℝ × ℝ) : List SparseFill :=
  lcFills cfg c withMl bkgRotationId PKPi (rands PKPi).1 (rands PKPi).2 ++
    lcFills cfg c withMl bkgRotationId PiKP (rands PiKP).1 (rands PiKP).2

/-- `processLcToPKPi`/`processLcToPKPiWithMl` (lines 460-481): the original
candidate followed by the rotated replicas 1..nBkgRotations. -/
def processLcToPKPiFills (cfg : LcConfig) (c : LcCandidate) (withMl : Bool)
    (rands : ℕ → ℕ → ℝ × ℝ) : List SparseFill :=
  runPolarisationAnalysisLc cfg c withMl 0 (rands 0) ++
    (List.range cfg.nBkgRotations).flatMap
      (fun i => runPolarisationAnalysisLc cfg c withMl (i + 1) (rands (i + 1)))

/-! ## Lemmas on the Lc extraction -/

theorem lcExtract_pkpi_unrotated (cfg : LcConfig) (c : LcCandidate) (withMl : Bool)
    (h1 : cfg.selectionFlagLcToPKPi ≤ c.isSelLcToPKPi) :
    lcExtract cfg c withMl 0 PKPi = some
      { pxDau := c.pxProng0, pyDau := c.pyProng0, pzDau := c.pzProng0,
        pxCharmHad := c.px, pyCharmHad := c.py, pzCharmHad := c.pz,
        massDau := massProton,
        invMassCharmHad := invMassLcToPKPi c,
        invMassCharmHadForSparse := invMassLcToPKPi c,
        rapidity := RecoDecayY ⟨c.px, c.py, c.pz⟩ massLc,
        outputMl0 := if withMl ∧ c.mlProbLcToPKPi.length = 3 then
          c.mlProbLcToPKPi.getD 0 0 else -1,
        outputMl1 := if withMl ∧ c.mlProbLcToPKPi.length = 3 then
          c.mlProbLcToPKPi.getD 1 0 else -1,
        outputMl2 := if withMl ∧ c.mlProbLcToPKPi.length = 3 then
          c.mlProbLcToPKPi.getD 2 0 else -1,
        isRotatedCandidate := 0 } := by
  unfold lcExtract
  rw [if_pos ⟨rfl, h1⟩]
  rfl

theorem lcExtract_pikp_unrotated (cfg : LcConfig) (c : LcCandidate) (withMl : Bool)
    (h2 : cfg.selectionFlagLcToPKPi ≤ c.isSelLcToPiKP) :
    lcExtract cfg c withMl 0 PiKP = some
      { pxDau := c.pxProng2, pyDau := c.pyProng2, pzDau := c.pzProng2,
        pxCharmHad := c.px, pyCharmHad := c.py, pzCharmHad := c.pz,
        massDau := massProton,
        invMassCharmHad := invMassLcToPiKP c,
        invMassCharmHadForSparse := invMassLcToPiKP c,
        rapidity := RecoDecayY ⟨c.px, c.py, c.pz⟩ massLc,
        outputMl0 := if withMl ∧ c.mlProbLcToPiKP.length = 3 then
          c.mlProbLcToPiKP.getD 0 0 else -1,
        outputMl1 := if withMl ∧ c.mlProbLcToPiKP.length = 3 then
          c.mlProbLcToPiKP.getD 1 0 else -1,
        outputMl2 := if withMl ∧ c.mlProbLcToPiKP.length = 3 then
          c.mlProbLcToPiKP.getD 2 0 else -1,
        isRotatedCandidate := 0 } := by
  unfold lcExtract
  rw [if_neg (fun h => absurd h.1 (by decide)), if_pos ⟨rfl, h2⟩]
  rfl

theorem lcExtract_pikp_skipped (cfg : LcConfig) (c : LcCandidate) (withMl : Bool)
    (bkgRotationId : ℕ) (h2 : c.isSelLcToPiKP < cfg.selectionFlagLcToPKPi) :
    lcExtract cfg c withMl bkgRotationId PiKP = none := by
  unfold lcExtract
  rw [if_neg (fun h => absurd h.1 (by decide)),
    if_neg (fun h => absurd h.2 (not_le.mpr h2))]

theorem lcExtract_pkpi_skipped (cfg : LcConfig) (c : LcCandidate) (withMl : Bool)
    (bkgRotationId : ℕ) (h1 : c.isSelLcToPKPi < cfg.selectionFlagLcToPKPi) :
    lcExtract cfg c withMl bkgRotationId PKPi = none := by
  unfold lcExtract
  rw [if_neg (fun h => absurd h.2 (not_le.mpr h1)),
    if_neg (fun h => absurd h.1 (by decide))]

/-- C3: at rotation index 0, the parent momentum used downstream equals the
candidate's own (unrotated) momentum fields exactly, the invariant mass
equals the unrotated invariant-mass formula for the active hypothesis, and
the rotated-candidate flag is 0. -/
theorem c3_unrotated_identity (cfg : LcConfig) (c : LcCandidate) (withMl : Bool) :
    (cfg.selectionFlagLcToPKPi ≤ c.isSelLcToPKPi →
      ∃ e, lcExtract cfg c withMl 0 PKPi = some e ∧
        e.pxCharmHad = c.px ∧ e.pyCharmHad = c.py ∧ e.pzCharmHad = c.pz ∧
        e.invMassCharmHad = invMassLcToPKPi c ∧
        e.invMassCharmHadForSparse = invMassLcToPKPi c ∧
        e.isRotatedCandidate = 0) ∧
    (cfg.selectionFlagLcToPKPi ≤ c.isSelLcToPiKP →
      ∃ e, lcExtract cfg c withMl 0 PiKP = some e ∧
        e.pxCharmHad = c.px ∧ e.pyCharmHad = c.py ∧ e.pzCharmHad = c.pz ∧
        e.invMassCharmHad = invMassLcToPiKP c ∧
        e.invMassCharmHadForSparse = invMassLcToPiKP c ∧
        e.isRotatedCandidate = 0) := by
  constructor
  · intro h1
    exact ⟨_, lcExtract_pkpi_unrotated cfg c withMl h1, rfl, rfl, rfl, rfl, rfl, rfl⟩
  · intro h2
    exact ⟨_, lcExtract_pikp_unrotated cfg c withMl h2, rfl, rfl, rfl, rfl, rfl, rfl⟩

/-- Concrete configuration: threshold 1, no rotations, all four THnSparses
active. -/
def cfgEx : LcConfig := ⟨1, 0, true, true, true, true⟩

/-- Concrete Lc candidate selected only as pKπ, with an empty ML vector. -/
def candEx : LcCandidate := ⟨1, 2, 3, 4, 5, 6, 7, 8, 9, 12, 15, 18, 1, 0, [], []⟩

/-- Concrete Lc candidate selected under both mass hypotheses. -/
def candEx3 : LcCandidate := ⟨1, 2, 3, 4, 5, 6, 7, 8, 9, 12, 15, 18, 1, 1, [], []⟩

theorem c3_unrotated_identity_witness :
    cfgEx.selectionFlagLcToPKPi ≤ candEx3.isSelLcToPKPi ∧
    cfgEx.selectionFlagLcToPKPi ≤ candEx3.isSelLcToPiKP ∧
    (∃ e, lcExtract cfgEx candEx3 false 0 PKPi = some e ∧
      e.pxCharmHad = candEx3.px ∧ e.pyCharmHad = candEx3.py ∧
      e.pzCharmHad = candEx3.pz ∧
      e.invMassCharmHad = invMassLcToPKPi candEx3 ∧
      e.invMassCharmHadForSparse = invMassLcToPKPi candEx3 ∧
      e.isRotatedCandidate = 0) ∧
    (∃ e, lcExtract cfgEx candEx3 false 0 PiKP = some e ∧
      e.pxCharmHad = candEx3.px ∧ e.pyCharmHad = candEx3.py ∧
      e.pzCharmHad = candEx3.pz ∧
      e.invMassCharmHad = invMassLcToPiKP candEx3 ∧
      e.invMassCharmHadForSparse = invMassLcToPiKP candEx3 ∧
      e.isRotatedCandidate = 0) := by
  have hA : cfgEx.selectionFlagLcToPKPi ≤ candEx3.isSelLcToPKPi := by
    norm_num [cfgEx, candEx3]
  have hB : cfgEx.selectionFlagLcToPKPi ≤ candEx3.isSelLcToPiKP := by
    norm_num [cfgEx, candEx3]
  have h := c3_unrotated_identity cfgEx candEx3 false
  exact ⟨hA, hB, h.1 hA, h.2 hB⟩

/-- C10: the in-plane rotation keeps the kaon track's longitudinal momentum
and its transverse-momentum magnitude, so the parent longitudinal momentum
of a rotated replica equals the sum of the three prongs' unrotated
z-components. -/
theorem c10_rotation_preserves_pz_and_pt (cfg : LcConfig) (c : LcCandidate)
    (angle : ℝ) (bkgRotationId : ℕ) (hrot : 0 < bkgRotationId) :
    (threeVecLcRotatedProng1 c angle).z = c.pzProng1 ∧
    (threeVecLcRotatedProng1 c angle).x ^ 2 + (threeVecLcRotatedProng1 c angle).y ^ 2 =
      c.pxProng1 ^ 2 + c.pyProng1 ^ 2 ∧
    (lcParentMomentum cfg c bkgRotationId).z =
      c.pzProng0 + c.pzProng1 + c.pzProng2 := by
  refine ⟨rfl, ?_, ?_⟩
  · unfold threeVecLcRotatedProng1
    dsimp only
    have h := Real.sin_sq_add_cos_sq angle
    linear_combination (c.pxProng1 ^ 2 + c.pyProng1 ^ 2) * h
  · unfold lcParentMomentum
    rw [if_pos hrot]
    rfl

theorem c10_rotation_preserves_pz_and_pt_witness :
    (0 : ℕ) < 1 ∧
    (threeVecLcRotatedProng1 candEx 0).z = candEx.pzProng1 ∧
    (lcParentMomentum cfgEx candEx 1).z =
      candEx.pzProng0 + candEx.pzProng1 + candEx.pzProng2 := by
  have h := c10_rotation_preserves_pz_and_pt cfgEx candEx 0 1 Nat.one_pos
  exact ⟨Nat.one_pos, h.1, h.2.2⟩

theorem lcFills_pkpi_skipped (cfg : LcConfig) (c : LcCandidate) (withMl : Bool)
    (bkgRotationId : ℕ) (phiRandom thetaRandom : ℝ)
    (h1 : c.isSelLcToPKPi < cfg.selectionFlagLcToPKPi) :
    lcFills cfg c withMl bkgRotationId PKPi phiRandom thetaRandom = [] := by
  unfold lcFills
  rw [lcExtract_pkpi_skipped cfg c withMl bkgRotationId h1]

theorem lcFills_pikp_skipped (cfg : LcConfig) (c : LcCandidate) (withMl : Bool)
    (bkgRotationId : ℕ) (phiRandom thetaRandom : ℝ)
    (h2 : c.isSelLcToPiKP < cfg.selectionFlagLcToPKPi) :
    lcFills cfg c withMl bkgRotationId PiKP phiRandom thetaRandom = [] := by
  unfold lcFills
  rw [lcExtract_pikp_skipped cfg c withMl bkgRotationId h2]

/-- C5: a mass hypothesis whose selection flag is below the configured
threshold is skipped entirely — the extraction yields nothing and no
histogram fill is issued for it — while the other hypothesis is still
processed at every rotation index: whichever hypothesis fails, the run's
output is exactly the other hypothesis's fills; in particular a candidate
selected only as pKπ never produces a πKp fill, and vice versa. -/
theorem c5_failed_hypothesis_skipped (cfg : LcConfig) (c : LcCandidate)
    (withMl : Bool) (bkgRotationId : ℕ) (phiRandom thetaRandom : ℝ)
    (rands : ℕ → ℝ × ℝ) :
    (c.isSelLcToPKPi < cfg.selectionFlagLcToPKPi →
      lcExtract cfg c withMl bkgRotationId PKPi = none ∧
      lcFills cfg c withMl bkgRotationId PKPi phiRandom thetaRandom = [] ∧
      runPolarisationAnalysisLc cfg c withMl bkgRotationId rands =
        lcFills cfg c withMl bkgRotationId PiKP (rands PiKP).1 (rands PiKP).2) ∧
    (c.isSelLcToPiKP < cfg.selectionFlagLcToPKPi →
      lcExtract cfg c withMl bkgRotationId PiKP = none ∧
      lcFills cfg c withMl bkgRotationId PiKP phiRandom thetaRandom = [] ∧
      runPolarisationAnalysisLc cfg c withMl bkgRotationId rands =
        lcFills cfg c withMl bkgRotationId PKPi (rands PKPi).1 (rands PKPi).2) := by
  constructor
  · intro h1
    refine ⟨lcExtract_pkpi_skipped cfg c withMl bkgRotationId h1,
      lcFills_pkpi_skipped cfg c withMl bkgRotationId phiRandom thetaRandom h1, ?_⟩
    unfold runPolarisationAnalysisLc
    rw [lcFills_pkpi_skipped cfg c withMl bkgRotationId (rands PKPi).1
      (rands PKPi).2 h1, List.nil_append]
  · intro h2
    refine ⟨lcExtract_pikp_skipped cfg c withMl bkgRotationId h2,
      lcFills_pikp_skipped cfg c withMl bkgRotationId phiRandom thetaRandom h2, ?_⟩
    unfold runPolarisationAnalysisLc
    rw [lcFills_pikp_skipped cfg c withMl bkgRotationId (rands PiKP).1
      (rands PiKP).2 h2, List.append_nil]

/-- Concrete Lc candidate whose selection flags fail both hypotheses (the
defensive case: upstream filtering normally prevents it). -/
def candEx5 : LcCandidate := ⟨1, 2, 3, 4, 5, 6, 7, 8, 9, 12, 15, 18, 0, 0, [], []⟩

theorem c5_failed_hypothesis_skipped_witness :
    candEx5.isSelLcToPKPi < cfgEx.selectionFlagLcToPKPi ∧
    candEx5.isSelLcToPiKP < cfgEx.selectionFlagLcToPKPi ∧
    (lcExtract cfgEx candEx5 true 1 PKPi = none ∧
      lcFills cfgEx candEx5 true 1 PKPi 0 0 = [] ∧
      runPolarisationAnalysisLc cfgEx candEx5 true 1 (fun _ => (0, 0)) =
        lcFills cfgEx candEx5 true 1 PiKP 0 0) ∧
    (lcExtract cfgEx candEx5 true 1 PiKP = none ∧
      lcFills cfgEx candEx5 true 1 PiKP 0 0 = [] ∧
      runPolarisationAnalysisLc cfgEx candEx5 true 1 (fun _ => (0, 0)) =
        lcFills cfgEx candEx5 true 1 PKPi 0 0) := by
  have h1 : candEx5.isSelLcToPKPi < cfgEx.selectionFlagLcToPKPi := by
    norm_num [cfgEx, candEx5]
  have h2 : candEx5.isSelLcToPiKP < cfgEx.selectionFlagLcToPKPi := by
    norm_num [cfgEx, candEx5]
  have h := c5_failed_hypothesis_skipped cfgEx candEx5 true 1 0 0 (fun _ => (0, 0))
  exact ⟨h1, h2, h.1 h1, h.2 h2⟩

/-! ## C4: fills in ML mode -/

theorem filter_axis_singleton (b : Bool) (f : SparseFill) (ax : SparseAxis)
    (h : ¬f.hist = ax) :
    List.filter (fun g => decide (g.hist = ax)) (if b then [f] else []) = [] := by
  cases b
  · rfl
  · simp [List.filter, h]

theorem filter_axis_singleton_self (b : Bool) (f : SparseFill) (ax : SparseAxis)
    (h : f.hist = ax) :
    List.filter (fun g => decide (g.hist = ax)) (if b then [f] else []) =
      if b then [f] else [] := by
  cases b
  · rfl
  · simp [List.filter, h]

/-- The helicity-histogram entries among the fills of one
`runPolarisationAnalysis` call for an Lc candidate in ML mode that passes
only the pKπ hypothesis: the single helicity fill of the pKπ evaluation
(when the helicity THnSparse is active). -/
theorem runLc_helicity_fills (cfg : LcConfig) (c : LcCandidate)
    (rands : ℕ → ℝ × ℝ)
    (h1 : cfg.selectionFlagLcToPKPi ≤ c.isSelLcToPKPi)
    (h2 : c.isSelLcToPiKP < cfg.selectionFlagLcToPKPi) :
    List.filter (fun g => decide (g.hist = SparseAxis.Helicity))
      (runPolarisationAnalysisLc cfg c true 0 rands) =
    (if cfg.activateTHnSparseCosThStarHelicity then
      [{ hist := SparseAxis.Helicity,
         invMassCharmHadForSparse := invMassLcToPKPi c,
         candidatePt := Real.sqrt (c.px * c.px + c.py * c.py),
         pzCharmHad := c.pz,
         rapidity := RecoDecayY ⟨c.px, c.py, c.pz⟩ massLc,
         cosThetaStar := cosThetaStarHelicity
           ⟨c.pxProng0, c.pyProng0, c.pzProng0, massProton⟩
           ⟨c.px, c.py, c.pz, invMassLcToPKPi c⟩,
         outputMl := some
           (if true = true ∧ c.mlProbLcToPKPi.length = 3 then
             c.mlProbLcToPKPi.getD 0 0 else -1,
            if true = true ∧ c.mlProbLcToPKPi.length = 3 then
             c.mlProbLcToPKPi.getD 2 0 else -1),
         isRotatedCandidate := 0 }] else []) := by
  have hrun : runPolarisationAnalysisLc cfg c true 0 rands =
      lcFills cfg c true 0 PKPi (rands PKPi).1 (rands PKPi).2 := by
    unfold runPolarisationAnalysisLc
    rw [lcFills_pikp_skipped cfg c true 0 (rands PiKP).1 (rands PiKP).2 h2,
      List.append_nil]
  rw [hrun]
  unfold lcFills
  rw [lcExtract_pkpi_unrotated cfg c true h1]
  simp only [List.filter_append]
  rw [filter_axis_singleton_self _ _ SparseAxis.Helicity (by exact rfl),
    filter_axis_singleton _ _ SparseAxis.Helicity (by simp),
    filter_axis_singleton _ _ SparseAxis.Helicity (by simp),
    filter_axis_singleton _ _ SparseAxis.Helicity (by simp)]
  simp only [List.append_nil]
  rfl

/-- C4 counterexample: in ML mode, a concrete non-rotated Lc candidate that
passes only the pKπ hypothesis and whose ML probability vector has size 0
(≠ 3) still fills one entry — not zero entries — in the helicity histogram,
with the ML fields at the sentinel -1. -/
theorem c4_counterexample :
    candEx.mlProbLcToPKPi.length ≠ 3 ∧
    (List.filter (fun g => decide (g.hist = SparseAxis.Helicity))
      (runPolarisationAnalysisLc cfgEx candEx true 0 (fun _ => (0, 0)))).length = 1 ∧
    ∀ f ∈ List.filter (fun g => decide (g.hist = SparseAxis.Helicity))
      (runPolarisationAnalysisLc cfgEx candEx true 0 (fun _ => (0, 0))),
      f.outputMl = some (-1, -1) := by
  have h1 : cfgEx.selectionFlagLcToPKPi ≤ candEx.isSelLcToPKPi := by
    norm_num [cfgEx, candEx]
  have h2 : candEx.isSelLcToPiKP < cfgEx.selectionFlagLcToPKPi := by
    norm_num [cfgEx, candEx]
  have hf := runLc_helicity_fills cfgEx candEx (fun _ => (0, 0)) h1 h2
  have hact : cfgEx.activateTHnSparseCosThStarHelicity = true := rfl
  rw [hact, if_pos rfl] at hf
  have hlen : candEx.mlProbLcToPKPi.length ≠ 3 := by
    norm_num [candEx]
  refine ⟨hlen, ?_, ?_⟩
  · rw [hf]
    rfl
  · rw [hf]
    intro f hfm
    rw [List.mem_singleton] at hfm
    subst hfm
    simp [hlen]

/-- C4 (amended): in ML mode, a single non-rotated Lc candidate satisfying
only the pKπ hypothesis fills exactly one entry in the (active) helicity
histogram with rotation-flag 0; when the candidate's ML probability vector
has size ≠ 3 the entry is still filled, with the ML fields remaining at the
sentinel -1. -/
theorem c4_single_helicity_fill (cfg : LcConfig) (c : LcCandidate)
    (rands : ℕ → ℝ × ℝ)
    (hH : cfg.activateTHnSparseCosThStarHelicity = true)
    (h1 : cfg.selectionFlagLcToPKPi ≤ c.isSelLcToPKPi)
    (h2 : c.isSelLcToPiKP < cfg.selectionFlagLcToPKPi) :
    (List.filter (fun g => decide (g.hist = SparseAxis.Helicity))
      (runPolarisationAnalysisLc cfg c true 0 rands)).length = 1 ∧
    ∀ f ∈ List.filter (fun g => decide (g.hist = SparseAxis.Helicity))
      (runPolarisationAnalysisLc cfg c true 0 rands),
      f.isRotatedCandidate = 0 ∧
      (c.mlProbLcToPKPi.length ≠ 3 → f.outputMl = some (-1, -1)) := by
  have hf := runLc_helicity_fills cfg c rands h1 h2
  rw [hH, if_pos rfl] at hf
  refine ⟨by rw [hf]; rfl, ?_⟩
  rw [hf]
  intro f hfm
  rw [List.mem_singleton] at hfm
  subst hfm
  refine ⟨rfl, fun hlen => ?_⟩
  simp [hlen]

theorem c4_single_helicity_fill_witness :
    cfgEx.activateTHnSparseCosThStarHelicity = true ∧
    cfgEx.selectionFlagLcToPKPi ≤ candEx.isSelLcToPKPi ∧
    candEx.isSelLcToPiKP < cfgEx.selectionFlagLcToPKPi ∧
    (List.filter (fun g => decide (g.hist = SparseAxis.Helicity))
      (runPolarisationAnalysisLc cfgEx candEx true 0 (fun _ => (1, 2)))).length = 1 ∧
    ∀ f ∈ List.filter (fun g => decide (g.hist = SparseAxis.Helicity))
      (runPolarisationAnalysisLc cfgEx candEx true 0 (fun _ => (1, 2))),
      f.isRotatedCandidate = 0 ∧
      (candEx.mlProbLcToPKPi.length ≠ 3 → f.outputMl = some (-1, -1)) := by
  have h1 : cfgEx.selectionFlagLcToPKPi ≤ candEx.isSelLcToPKPi := by
    norm_num [cfgEx, candEx]
  have h2 : candEx.isSelLcToPiKP < cfgEx.selectionFlagLcToPKPi := by
    norm_num [cfgEx, candEx]
  have h := c4_single_helicity_fill cfgEx candEx (fun _ => (1, 2)) rfl h1 h2
  exact ⟨rfl, h1, h2, h.1, h.2⟩

/-! ## C7: the dispatcher -/

/-- `nMassHypos` as set in `init` (lines 209-216): two mass hypotheses for
the Lc→pKπ process functions, one otherwise (D*, Lc→pK0s). -/
def nMassHypos (doprocessLcToPKPi doprocessLcToPKPiWithMl : Bool) : ℕ :=
  if doprocessLcToPKPi || doprocessLcToPKPiWithMl then NMassHypoLcToPKPi else 1

/-- The (mass-hypothesis, rotation-index) pairs evaluated by one
`runPolarisationAnalysis` call: the loop over `iMass` (line 226) at a fixed
rotation index. -/
def runPolarisationAnalysisPairs (nMassHyposActive bkgRotationId : ℕ) : List (ℕ × ℕ) :=
  (List.range nMassHyposActive).map (fun iMass => (iMass, bkgRotationId))

/-- The pairs evaluated per D* candidate by `processDstar` (lines 442-446):
one call with the default rotation index 0, no rotation loop. -/
def processDstarPairs : List (ℕ × ℕ) :=
  runPolarisationAnalysisPairs (nMassHypos false false) 0

/-- The pairs evaluated per Lc candidate by `processLcToPKPi` /
`processLcToPKPiWithMl` (lines 460-481): the original candidate followed by
rotation indices 1..nBkgRotations. -/
def processLcToPKPiPairs (nBkgRotations : ℕ) : List (ℕ × ℕ) :=
  runPolarisationAnalysisPairs (nMassHypos true false) 0 ++
    (List.range nBkgRotations).flatMap
      (fun i => runPolarisationAnalysisPairs (nMassHypos true false) (i + 1))

/-- C7: per candidate the dispatcher evaluates exactly these
(mass-hypothesis, rotation-index) pairs — D*: the single pair (0, 0); Lc:
the two mass hypotheses crossed with rotation indices 0..N inclusive
(2·(N+1) evaluations, one per such pair). -/
theorem c7_dispatcher_pairs (N : ℕ) :
    processDstarPairs = [(0, 0)] ∧
    (∀ m r : ℕ, (m, r) ∈ processLcToPKPiPairs N ↔
      m < NMassHypoLcToPKPi ∧ r ≤ N) ∧
    (processLcToPKPiPairs N).length = NMassHypoLcToPKPi * (N + 1) := by
  refine ⟨by decide, ?_, ?_⟩
  · intro m r
    simp only [processLcToPKPiPairs, runPolarisationAnalysisPairs, nMassHypos,
      NMassHypoLcToPKPi, Bool.true_or, if_pos, List.mem_append, List.mem_flatMap,
      List.mem_map, List.mem_range, Prod.mk.injEq]
    constructor
    · rintro (⟨a, ha, rfl, rfl⟩ | ⟨i, hi, a, ha, rfl, rfl⟩) <;> omega
    · rintro ⟨hm, hr⟩
      rcases Nat.eq_zero_or_pos r with hr0 | hrpos
      · subst hr0
        exact Or.inl ⟨m, hm, rfl, rfl⟩
      · exact Or.inr ⟨r - 1, by omega, m, hm, rfl, by omega⟩
  · induction N with
    | zero => decide
    | succ n ih =>
      have hsplit : processLcToPKPiPairs (n + 1) = processLcToPKPiPairs n ++
          runPolarisationAnalysisPairs (nMassHypos true false) (n + 1) := by
        simp only [processLcToPKPiPairs, List.range_succ, List.flatMap_append,
          List.flatMap_cons, List.flatMap_nil, List.append_nil, List.append_assoc]
      have h2 : (runPolarisationAnalysisPairs (nMassHypos true false) (n + 1)).length =
          NMassHypoLcToPKPi := by
        simp [runPolarisationAnalysisPairs, nMassHypos]
      rw [hsplit, List.length_append, ih, h2]
      ring

/-! ## C8: the D* extraction (lines 236-254) -/

/-- A D* candidate record: the fields of
`soa::Join<aod::HfCandDstar, aod::HfSelDstarToD0Pi>` read by the task. -/
structure DstarCandidate where
  pxSoftPi : ℝ
  pySoftPi : ℝ
  pzSoftPi : ℝ
  pxDstar : ℝ
  pyDstar : ℝ
  pzDstar : ℝ
  signSoftPi : ℤ
  invMassDstar : ℝ
  invMassAntiDstar : ℝ
  invMassD0 : ℝ
  invMassD0Bar : ℝ
  y : ℝ → ℝ

/-- The D* kinematic extraction (lines 236-254): the probe is the soft
pion; the parent mass selects the particle or antiparticle hypothesis by the
soft-pion charge sign; the sparse-axis mass is the D*−D0 mass difference;
ML scores are hardcoded to the sentinel −1 (not implemented in the
selector). -/
def dstarExtract (c : DstarCandidate) (_withMl : Bool) : EvalVars :=
  let invMassCharmHad :=
    if 0 < c.signSoftPi then c.invMassDstar else c.invMassAntiDstar
  { pxDau := c.pxSoftPi, pyDau := c.pySoftPi, pzDau := c.pzSoftPi,
    pxCharmHad := c.pxDstar, pyCharmHad := c.pyDstar, pzCharmHad := c.pzDstar,
    massDau := massPi,
    invMassCharmHad := invMassCharmHad,
    invMassCharmHadForSparse :=
      if 0 < c.signSoftPi then invMassCharmHad - c.invMassD0
      else invMassCharmHad - c.invMassD0Bar,
    rapidity := c.y massDstar,
    outputMl0 := -1, outputMl1 := -1, outputMl2 := -1,
    isRotatedCandidate := 0 }

/-- C8: the D* parent invariant mass is chosen between the particle and
antiparticle hypothesis by the sign of the soft-pion charge, and the value
written to the sparse-histogram mass axis is that D* invariant mass minus
the corresponding D0 (or D0-bar) invariant mass, not the D* mass itself. -/
theorem c8_dstar_mass_selection (c : DstarCandidate) (withMl : Bool) :
    (dstarExtract c withMl).invMassCharmHad =
      (if 0 < c.signSoftPi then c.invMassDstar else c.invMassAntiDstar) ∧
    (dstarExtract c withMl).invMassCharmHadForSparse =
      (dstarExtract c withMl).invMassCharmHad -
        (if 0 < c.signSoftPi then c.invMassD0 else c.invMassD0Bar) := by
  refine ⟨rfl, ?_⟩
  unfold dstarExtract
  dsimp only
  split_ifs <;> rfl

/-! ## C9: the startup configuration checks (lines 102-130) -/

/-- Outcome of `init`: either a `LOGP(fatal, ...)` that halts the run, or
successful initialization. -/
inductive InitResult where
  | fatal (msg : String)
  | success
  deriving DecidableEq

/-- The `init` configuration checks (lines 104-117): count the enabled
process functions, then the enabled THnSparses, in source order. -/
def TaskInit (doprocessDstar doprocessDstarWithMl doprocessLcToPKPi
    doprocessLcToPKPiWithMl activateHelicity activateProduction activateBeam
    activateRandom : Bool) : InitResult :=
  let nProcesses := cond doprocessDstar 1 0 + cond doprocessDstarWithMl 1 0 +
    cond doprocessLcToPKPi 1 0 + cond doprocessLcToPKPiWithMl 1 0
  if 1 < nProcesses then
    InitResult.fatal "Only one process function should be enabled at a time, please check your configuration"
  else if nProcesses = 0 then
    InitResult.fatal "No process function enabled"
  else if cond activateHelicity 1 0 + cond activateProduction 1 0 +
      cond activateBeam 1 0 + cond activateRandom 1 0 = 0 then
    InitResult.fatal "No output THnSparses enabled"
  else
    InitResult.success

/-- The candidate evaluations the task performs, guarded by `init`: a fatal
configuration error halts the run before any candidate is processed. -/
def TaskProcessedCandidates (doprocessDstar doprocessDstarWithMl
    doprocessLcToPKPi doprocessLcToPKPiWithMl activateHelicity
    activateProduction activateBeam activateRandom : Bool)
    (candidateEvaluations : List (ℕ × ℕ)) : Option (List (ℕ × ℕ)) :=
  match TaskInit doprocessDstar doprocessDstarWithMl doprocessLcToPKPi
    doprocessLcToPKPiWithMl activateHelicity activateProduction activateBeam
    activateRandom with
  | InitResult.fatal _ => none
  | InitResult.success => some candidateEvaluations

/-- C9: initialization succeeds iff exactly one processing mode is enabled
and at least one of the four angle-axis histograms is enabled; otherwise a
fatal error halts the run and no candidate is processed. -/
theorem c9_init_fatal_checks :
    (∀ pd pdml plc plcml aH aP aB aR : Bool,
      TaskInit pd pdml plc plcml aH aP aB aR = InitResult.success ↔
        (cond pd 1 0 + cond pdml 1 0 + cond plc 1 0 + cond plcml 1 0 = 1 ∧
          (aH || aP || aB || aR) = true)) ∧
    (∀ (pd pdml plc plcml aH aP aB aR : Bool) (l : List (ℕ × ℕ)),
      TaskInit pd pdml plc plcml aH aP aB aR ≠ InitResult.success →
        TaskProcessedCandidates pd pdml plc plcml aH aP aB aR l = none) := by
  constructor
  · decide
  · intro pd pdml plc plcml aH aP aB aR l h
    unfold TaskProcessedCandidates
    cases hinit : TaskInit pd pdml plc plcml aH aP aB aR
    · rfl
    · exact absurd hinit h

theorem c9_init_fatal_checks_witness :
    TaskInit false false false false true true true true ≠ InitResult.success ∧
    TaskProcessedCandidates false false false false true true true true
      [(0, 0)] = none := by
  have h : TaskInit false false false false true true true true ≠
      InitResult.success := by decide
  exact ⟨h, c9_init_fatal_checks.2 false false false false true true true true
    [(0, 0)] h⟩

end

end CharmPolarisation
